import Mathlib

/-!
# Verification of the sight-reading trainer's core logic

Shallow embedding of the pitch-detection / note-progression subsystem of the
`l2siteread` repository:

* the SRS scheduling engine (`SRSEngine` in the source): `recordResult`,
  `checkProgression`, `checkRegression`, `generateCard`;
* the note mapper (`PitchDetector.frequencyToNote`);
* the frequency estimator (`PitchDetector.autocorrelate` and
  `PitchDetector.findFundamentalFrequency`).

JavaScript numbers holding millisecond timestamps and latencies are embedded
as `ℤ`, counters and levels as `ℕ`, and audio samples / correlations /
frequencies as `ℚ`.  The `items` map of the engine (a JS object keyed by
note id) is embedded as `String → Option MasteryRecord`.  `localStorage`
persistence (`saveData`) is the identity on the in-memory state and is
modelled by returning the updated state.
-/

/-! ## Configuration constants (src/config.js) -/

/-- Per-note streak requirement (`REQUIRED_STREAK_PER_NOTE = 20` in config.js). -/
def REQUIRED_STREAK_PER_NOTE : ℕ := 20

/-- One entry of a clef's curriculum: `{n: letter, o: octave}` in config.js. -/
structure ProgEntry where
  n : String
  o : ℕ
deriving DecidableEq, Repr

/-- `PROGRESSION['treble']` from config.js. -/
def trebleProgression : List ProgEntry :=
  [⟨"C", 4⟩, ⟨"D", 4⟩, ⟨"E", 4⟩, ⟨"B", 3⟩, ⟨"F", 4⟩, ⟨"G", 4⟩,
   ⟨"A", 4⟩, ⟨"B", 4⟩, ⟨"C", 5⟩, ⟨"A", 3⟩, ⟨"G", 3⟩, ⟨"D", 5⟩,
   ⟨"E", 5⟩, ⟨"F", 5⟩]

/-- `PROGRESSION['bass']` from config.js. -/
def bassProgression : List ProgEntry :=
  [⟨"C", 3⟩, ⟨"B", 2⟩, ⟨"A", 2⟩, ⟨"D", 3⟩, ⟨"G", 2⟩, ⟨"F", 2⟩,
   ⟨"E", 3⟩, ⟨"F", 3⟩, ⟨"E", 2⟩, ⟨"D", 2⟩, ⟨"C", 2⟩]

/-- `PROGRESSION[clef] || PROGRESSION['treble']`: any clef other than the two
defined keys falls back to the treble curriculum, as in the engine's lookups. -/
def PROGRESSION (clef : String) : List ProgEntry :=
  if clef = "treble" then trebleProgression
  else if clef = "bass" then bassProgression
  else trebleProgression

/-- `KEY_SIGNATURES` from config.js (unknown keys give the empty list). -/
def KEY_SIGNATURES (keySig : String) : List String :=
  if keySig = "C" then []
  else if keySig = "G" then ["F#"]
  else if keySig = "F" then ["Bb"]
  else if keySig = "D" then ["F#", "C#"]
  else if keySig = "Bb" then ["Bb", "Eb"]
  else []

/-! ## SRS engine state (SRSEngine in the source) -/

/-- One per-note mastery record: `{ level, nextReview, streak }`. -/
structure MasteryRecord where
  level : ℕ
  nextReview : ℤ
  streak : ℕ
deriving DecidableEq, Repr

/-- The `stats` sub-object: `{ streak, total, correct }`. -/
structure SRSStats where
  streak : ℕ
  total : ℕ
  correct : ℕ
deriving DecidableEq, Repr

/-- The engine's persisted state `this.data`. -/
structure SRSData where
  items : String → Option MasteryRecord
  unlockedCount : ℕ
  stats : SRSStats
  recentAttempts : List Bool

/-- The default state built by `loadData` when nothing is persisted. -/
def initialSRSData : SRSData :=
  { items := fun _ => none
    unlockedCount := 3
    stats := { streak := 0, total := 0, correct := 0 }
    recentAttempts := [] }

/-- `getKey(clef, note, octave)`: the template string `clef-noteoctave`. -/
def getKey (clef n : String) (o : ℕ) : String :=
  clef ++ "-" ++ n ++ toString o

/-- The spaced-repetition interval table (minutes), local to `recordResult`:
`const intervals = [1, 5, 30, 120, 720, 2880]`. -/
def srsIntervals : List ℤ := [1, 5, 30, 120, 720, 2880]

/-- `recordResult(cardId, isCorrect, timeDelta)` of the SRS engine.  `now` is
`Date.now()` at the time of the call.  Returns the updated state together with
the `feedbackType` string the method returns. -/
def recordResult (d : SRSData) (cardId : String) (isCorrect : Bool)
    (timeDelta now : ℤ) : SRSData × String :=
  -- missing item created as { level: 0, nextReview: 0, streak: 0 }
  let item0 : MasteryRecord := (d.items cardId).getD { level := 0, nextReview := 0, streak := 0 }
  -- recentAttempts.push(isCorrect); if length > 50, shift()
  let ra0 := d.recentAttempts ++ [isCorrect]
  let ra := if ra0.length > 50 then ra0.tail else ra0
  -- Speed threshold: 2500 ms
  let isFast := timeDelta ≤ 2500
  if isCorrect then
    let streak1 := item0.streak + 1
    if isFast then
      let level1 := min (item0.level + 1) (srsIntervals.length - 1)
      let item1 : MasteryRecord :=
        { level := level1
          nextReview := now + (srsIntervals.getD level1 0) * 60 * 1000
          streak := streak1 }
      ({ items := fun k => if k = cardId then some item1 else d.items k
         unlockedCount := d.unlockedCount
         stats := { streak := d.stats.streak + 1, total := d.stats.total + 1,
                    correct := d.stats.correct + 1 }
         recentAttempts := ra }, "correct")
    else
      -- correct but slow: level = max(0, min(level, 2)), review in 3 minutes
      let item1 : MasteryRecord :=
        { level := max 0 (min item0.level 2)
          nextReview := now + 3 * 60 * 1000
          streak := streak1 }
      ({ items := fun k => if k = cardId then some item1 else d.items k
         unlockedCount := d.unlockedCount
         stats := { streak := d.stats.streak + 1, total := d.stats.total + 1,
                    correct := d.stats.correct + 1 }
         recentAttempts := ra }, "slow")
  else
    -- wrong: streak = 0, level = 0, review in 1 minute
    let item1 : MasteryRecord :=
      { level := 0, nextReview := now + 1 * 60 * 1000, streak := 0 }
    ({ items := fun k => if k = cardId then some item1 else d.items k
       unlockedCount := d.unlockedCount
       stats := { streak := 0, total := d.stats.total + 1,
                  correct := d.stats.correct }
       recentAttempts := ra }, "wrong")

/-! ## Progression and regression checks (SRSEngine.checkProgression /
SRSEngine.checkRegression) -/

/-- The loop body of `checkProgression` over the unlocked prefix: the early
`return false` on a note with no record is `none`; otherwise the number of
notes whose streak meets `REQUIRED_STREAK_PER_NOTE` is counted. -/
def readyCount (d : SRSData) (clef : String) : List ProgEntry → Option ℕ
  | [] => some 0
  | p :: rest =>
    match d.items (getKey clef p.n p.o) with
    | none => none
    | some item =>
      (readyCount d clef rest).map
        (fun c => c + if item.streak ≥ REQUIRED_STREAK_PER_NOTE then 1 else 0)

/-- `checkProgression(clef)`: unlock the next curriculum note when every
currently unlocked note has a record whose streak meets the requirement.
Returns the method's boolean result and the (persisted) updated state. -/
def checkProgression (d : SRSData) (clef : String) : Bool × SRSData :=
  let prog := PROGRESSION clef
  let mx := prog.length
  let currentUnlocked := d.unlockedCount
  if currentUnlocked ≥ mx then (false, d)
  else
    let entries := prog.take currentUnlocked
    match readyCount d clef entries with
    | none => (false, d)
    | some notesReady =>
      let totalUnlocked := entries.length
      if totalUnlocked > 0 ∧ notesReady = totalUnlocked then
        (true, { d with unlockedCount := d.unlockedCount + 1 })
      else (false, d)

/-- The counting loop of `checkRegression`: notes of the unlocked prefix whose
record is absent or has a streak below the requirement. -/
def lowStreakCount (d : SRSData) (clef : String) (entries : List ProgEntry) : ℕ :=
  entries.countP (fun p =>
    match d.items (getKey clef p.n p.o) with
    | some item => decide (item.streak < REQUIRED_STREAK_PER_NOTE)
    | none => true)

/-- `checkRegression(clef)`: drop the unlocked count by one (never below the
floor of 3) when more than half of the unlocked prefix has lost its streak. -/
def checkRegression (d : SRSData) (clef : String) : Bool × SRSData :=
  let prog := PROGRESSION clef
  let currentUnlocked := d.unlockedCount
  if currentUnlocked ≤ 3 then (false, d)
  else
    let entries := prog.take currentUnlocked
    let notesWithLowStreak := lowStreakCount d clef entries
    let totalUnlocked := entries.length
    let lowStreakRatio : ℚ :=
      if totalUnlocked > 0 then (notesWithLowStreak : ℚ) / totalUnlocked else 0
    if totalUnlocked > 0 ∧ lowStreakRatio > 1/2 then
      (true, { d with unlockedCount := max 3 (currentUnlocked - 1) })
    else (false, d)

/-- A store state with an empty unlocked prefix (`unlockedCount = 0`). -/
def emptyPrefixData : SRSData :=
  { items := fun _ => none
    unlockedCount := 0
    stats := { streak := 0, total := 0, correct := 0 }
    recentAttempts := [] }

/-- A store state with three unlocked treble notes, each mastered to the
required streak. -/
def masteredThreeData : SRSData :=
  { items := fun k =>
      if k = "treble-C4" then some { level := 3, nextReview := 0, streak := 20 }
      else if k = "treble-D4" then some { level := 4, nextReview := 0, streak := 25 }
      else if k = "treble-E4" then some { level := 3, nextReview := 0, streak := 20 }
      else none
    unlockedCount := 3
    stats := { streak := 0, total := 0, correct := 0 }
    recentAttempts := [] }

/-- A store state with four unlocked treble notes, three of which have lost
the required streak (one of them has no record at all). -/
def regressionFourData : SRSData :=
  { items := fun k =>
      if k = "treble-C4" then some { level := 3, nextReview := 0, streak := 25 }
      else if k = "treble-D4" then some { level := 1, nextReview := 0, streak := 5 }
      else if k = "treble-E4" then some { level := 0, nextReview := 0, streak := 0 }
      else none
    unlockedCount := 4
    stats := { streak := 0, total := 0, correct := 0 }
    recentAttempts := [] }

/-! ## Card selection (SRSEngine.generateCard) -/

/-- The ephemeral card object built per curriculum entry. -/
structure Card where
  clef : String
  keySig : String
  note : String
  octave : ℕ
  accidental : Option String
  id : String
deriving DecidableEq, Repr

/-- The key-signature accidental resolution: the `sigNotes.forEach` loop sets
`accidental` to the tail of any signature entry starting with the note
letter. -/
def cardAccidental (keySig n : String) : Option String :=
  (KEY_SIGNATURES keySig).foldl
    (fun acc sigNote =>
      if sigNote.startsWith n then
        (if sigNote.length > 1 then some (sigNote.drop 1) else acc)
      else acc)
    none

/-- The card object `generateCard` builds for a curriculum entry. -/
def mkCard (clef keySig : String) (p : ProgEntry) : Card :=
  { clef := clef, keySig := keySig, note := p.n, octave := p.o
    accidental := cardAccidental keySig p.n
    id := getKey clef p.n p.o }

/-- The candidate-pool partition loop of `generateCard`, in curriculum order:
`(newItems, dueItems, strugglingItems, candidates)`. -/
def buildPools (d : SRSData) (clef keySig : String) (now : ℤ) :
    List ProgEntry → List Card × List Card × List Card × List Card
  | [] => ([], [], [], [])
  | p :: rest =>
    let pools := buildPools d clef keySig now rest
    let card := mkCard clef keySig p
    match d.items (getKey clef p.n p.o) with
    | none => (card :: pools.1, pools.2.1, pools.2.2.1, pools.2.2.2)
    | some item =>
      (pools.1,
       if item.nextReview ≤ now then card :: pools.2.1 else pools.2.1,
       if item.level = 0 ∨ item.streak < REQUIRED_STREAK_PER_NOTE then
         card :: pools.2.2.1
       else pools.2.2.1,
       card :: pools.2.2.2)

/-- The outcomes of the `Math.random()` draws one `generateCard` call can
consume: the two probability gates, and the uniform index picks (JS
`Math.floor(Math.random() * len)`, embedded as `idx % len`). -/
structure RandDraws where
  pickStruggling : ℚ
  idxStruggling : ℕ
  pickNew : ℚ
  idxDue : ℕ
  idxAll : ℕ

/-- The hardcoded final fallback card of `generateCard`
(`{ clef, keySig, note: 'C', octave: 4, accidental: null, id: 'fallback' }`). -/
def fallbackCard (clef keySig : String) : Card :=
  { clef := clef, keySig := keySig, note := "C", octave := 4
    accidental := none, id := "fallback" }

/-- `const limit = Math.min(this.data.unlockedCount, prog.length)` — the size
of the unlocked curriculum prefix `generateCard` draws from. -/
def unlockedLimit (d : SRSData) (clef : String) : ℕ :=
  min d.unlockedCount (PROGRESSION clef).length

/-- `generateCard(clef, keySig)`.  The in-bounds uniform index picks are
embedded as `idx % length`; the `getD` defaults are never used on the
branches the source takes (each branch requires its pool non-empty). -/
def generateCard (d : SRSData) (clef keySig : String) (now : ℤ)
    (rnd : RandDraws) : Card :=
  let pools := buildPools d clef keySig now
    ((PROGRESSION clef).take (unlockedLimit d clef))
  if 0 < pools.2.2.1.length ∧ rnd.pickStruggling < 2/5 then
    pools.2.2.1.getD (rnd.idxStruggling % pools.2.2.1.length)
      (fallbackCard clef keySig)
  else if 0 < pools.1.length ∧ rnd.pickNew < 3/10 then
    pools.1.getD 0 (fallbackCard clef keySig)
  else if 0 < pools.2.1.length then
    pools.2.1.getD (rnd.idxDue % pools.2.1.length) (fallbackCard clef keySig)
  else if 0 < pools.2.2.2.length then
    pools.2.2.2.getD (rnd.idxAll % pools.2.2.2.length) (fallbackCard clef keySig)
  else fallbackCard clef keySig

/-- One concrete outcome of the random draws: the struggling gate would pass,
the new-note gate fails (`0.5 ≥ 0.3`). -/
def freshMissRand : RandDraws :=
  { pickStruggling := 0, idxStruggling := 0, pickNew := 1/2
    idxDue := 0, idxAll := 0 }

/-- One concrete outcome of the random draws: the new-note gate succeeds
(`0.1 < 0.3`). -/
def newPickRand : RandDraws :=
  { pickStruggling := 0, idxStruggling := 0, pickNew := 1/10
    idxDue := 0, idxAll := 0 }

/-- A store state with the first three bass notes mastered to the required
streak. -/
def bassMasteredData : SRSData :=
  { items := fun k =>
      if k = "bass-C3" then some { level := 3, nextReview := 0, streak := 21 }
      else if k = "bass-B2" then some { level := 3, nextReview := 0, streak := 20 }
      else if k = "bass-A2" then some { level := 4, nextReview := 0, streak := 30 }
      else none
    unlockedCount := 3
    stats := { streak := 0, total := 0, correct := 0 }
    recentAttempts := [] }

/-! ## Note mapping (PitchDetector.frequencyToNote, current revision with the
semitones-from-C0 reference constant 57) -/

/-- The chromatic name table `noteNames` (one 12-entry list in the source,
split here into two appended halves). -/
def noteNames : List String :=
  ["C", "C#", "D", "D#", "E", "F"] ++ ["F#", "G", "G#", "A", "A#", "B"]

/-- The result object of `frequencyToNote`. -/
structure NoteResult where
  note : String
  octave : ℤ
  frequency : ℝ
  accidental : Option String

/-- `frequencyToNote(frequency)`: equal temperament referenced to A4 = 440 Hz.
`Math.round` is `round` (`⌊x + 1/2⌋`), `Math.floor` of the integer division is
`Int.fdiv`, and the JS remainder (truncated) is `Int.tmod`. -/
noncomputable def frequencyToNote (frequency : ℝ) : Option NoteResult :=
  if frequency ≤ 0 then none
  else
    let semitonesFromA4 : ℝ := 12 * Real.logb 2 (frequency / 440)
    let roundedSemitones : ℤ := round semitonesFromA4
    -- A4 = 4*12 + 9 = 57 semitones from C0
    let noteNumberFromC0 : ℤ := 4 * 12 + 9 + roundedSemitones
    let octave : ℤ := Int.fdiv noteNumberFromC0 12
    let noteIndex : ℤ := ((Int.tmod noteNumberFromC0 12) + 12).tmod 12
    let noteName : String := noteNames.getD noteIndex.toNat ""
    -- noteName.includes of the sharp sign: membership among its characters
    some { note := noteName
           octave := octave
           frequency := frequency
           accidental := if noteName.data.contains '#' then some "#" else none }

/-! ## Frequency estimation (PitchDetector.autocorrelate and
PitchDetector.findFundamentalFrequency, current revision).

Audio samples, correlations and frequencies are `ℚ`.  The decimal constants
of the source appear as fractions: `0.005² = 1/40000` (the RMS noise gate is
compared squared: for non-negative x, `sqrt x < c ↔ x < c²`), `0.60 = 3/5`,
`0.9 = 9/10`, `0.001 = 1/1000`, `0.3 = 3/10`, `0.7 = 7/10`, `1.8 = 9/5`,
`2.2 = 11/5`, `2.8 = 14/5`, `3.2 = 16/5`, `0.6 = 3/5`, `0.5 = 1/2`.  The
sparse `correlations` array is `ℕ → Option ℚ` (`none` = JS `undefined`). -/

/-- The harmonic-candidate loop of `findFundamentalFrequency`, folding the
`(bestFundamental, bestFundamentalCorrelation)` pair over `[2, 3, 4, 5, 6]`. -/
def harmonicScan (detectedFreq : ℚ) (correlations : ℕ → Option ℚ)
    (corrLen : ℕ) (sampleRate : ℚ) (minSamples : ℕ) :
    List ℕ → ℚ × ℚ → ℚ × ℚ
  | [], best => best
  | harmonic :: rest, best =>
    let candidateFundamental := detectedFreq / harmonic
    if candidateFundamental < 60 ∨ candidateFundamental > 400 then
      harmonicScan detectedFreq correlations corrLen sampleRate minSamples rest best
    else
      let candidateOffset : ℤ := round (sampleRate / candidateFundamental)
      if (minSamples : ℤ) ≤ candidateOffset ∧ candidateOffset < (corrLen : ℤ) then
        match correlations candidateOffset.toNat with
        | some candidateCorrelation =>
          if candidateCorrelation > best.2 * (7/10) ∧
              candidateFundamental < best.1 then
            harmonicScan detectedFreq correlations corrLen sampleRate minSamples
              rest (candidateFundamental, candidateCorrelation)
          else
            harmonicScan detectedFreq correlations corrLen sampleRate minSamples
              rest best
        | none =>
          harmonicScan detectedFreq correlations corrLen sampleRate minSamples
            rest best
      else
        harmonicScan detectedFreq correlations corrLen sampleRate minSamples
          rest best

/-- `findFundamentalFrequency(detectedFreq, correlations, sampleRate,
minSamples, detectedCorrelation)`: harmonic correction with the expected
fundamental band `[60, 400]` Hz, and outright rejection above 450 Hz.
(`detectedCorrelation || 0` is the identity on `ℚ`.) -/
def findFundamentalFrequency (detectedFreq : ℚ) (correlations : ℕ → Option ℚ)
    (corrLen : ℕ) (sampleRate : ℚ) (minSamples : ℕ)
    (detectedCorrelation : ℚ) : ℚ :=
  if detectedFreq > 450 then -1
  else
    let best := harmonicScan detectedFreq correlations corrLen sampleRate
      minSamples [2, 3, 4, 5, 6] (detectedFreq, detectedCorrelation)
    if best.1 < detectedFreq ∧ best.2 > 3/10 then best.1
    else if detectedFreq < 60 ∨ detectedFreq > 400 then -1
    else detectedFreq

/-- The mutable locals of the main lag loop of `autocorrelate`. -/
structure ACState where
  lastCorrelation : ℚ
  bestCorrelation : ℚ
  bestOffset : ℤ
  foundGoodCorrelation : Bool
  correlations : ℕ → Option ℚ

/-- One lag's correlation: the normalized dot product
`Σ nb[i]*nb[i+offset]` over `i < SIZE - offset`, divided by the count when
positive. -/
def acCorrelation (nb : List ℚ) (offset : ℕ) : ℚ :=
  let pairs := nb.zip (nb.drop offset)
  let corrSum := (pairs.map (fun q => q.1 * q.2)).sum
  if 0 < pairs.length then corrSum / pairs.length else corrSum

/-- The per-iteration state update of the lag loop: store the correlation,
track the running best, set the found-good flag, advance `lastCorrelation`. -/
def acUpdate (st : ACState) (offset : ℕ) (correlation : ℚ) : ACState :=
  let corrs1 := fun k => if k = offset then some correlation else st.correlations k
  let best1 : ℚ × ℤ :=
    if correlation > st.bestCorrelation then (correlation, (offset : ℤ))
    else (st.bestCorrelation, st.bestOffset)
  { lastCorrelation := correlation
    bestCorrelation := best1.1
    bestOffset := best1.2
    foundGoodCorrelation :=
      if correlation > 3/5 ∧ correlation > st.lastCorrelation then true
      else st.foundGoodCorrelation
    correlations := corrs1 }

/-- The main lag loop of `autocorrelate` over the offsets
`[minSamples, actualMax)`, on the normalized buffer `nb`.  A `some` first
component is the loop's early `return fundamental`.  The guards read the
source's values at the branch point: `bestCorrelation`, `bestOffset` and the
`correlations` array were already updated this iteration (`st1`), while
`foundGoodCorrelation` and `lastCorrelation` were not (`st`). -/
def acLoop (nb : List ℚ) (sampleRate : ℚ) (minSamples actualMax : ℕ) :
    List ℕ → ACState → Option ℚ × ACState
  | [], st => (none, st)
  | offset :: rest, st =>
    let correlation := acCorrelation nb offset
    let st1 := acUpdate st offset correlation
    if correlation > 3/5 ∧ correlation > st.lastCorrelation then
      acLoop nb sampleRate minSamples actualMax rest st1
    else if st.foundGoodCorrelation = true ∧
        correlation < st1.bestCorrelation * (9/10) then
      if st1.bestOffset > 0 ∧ st1.bestOffset < (actualMax : ℤ) - 1 ∧
          st1.bestOffset > (minSamples : ℤ) then
        let shift := ((st1.correlations (st1.bestOffset + 1).toNat).getD 0 -
            (st1.correlations (st1.bestOffset - 1).toNat).getD 0) /
          (2 * (st1.correlations st1.bestOffset.toNat).getD 0)
        let frequency := sampleRate / ((st1.bestOffset : ℚ) + shift)
        let fundamental := findFundamentalFrequency frequency st1.correlations
          actualMax sampleRate minSamples st1.bestCorrelation
        if fundamental > 0 then (some fundamental, st1)
        else acLoop nb sampleRate minSamples actualMax rest st1
      else acLoop nb sampleRate minSamples actualMax rest st1
    else acLoop nb sampleRate minSamples actualMax rest st1

/-- A correlation peak recorded by the post-loop scan of `autocorrelate`. -/
structure ACPeak where
  offset : ℕ
  correlation : ℚ
  frequency : ℚ

/-- The post-loop peak identification of `autocorrelate`: local maxima with
correlation above 0.3 over the offsets `[minSamples+2, actualMax-2)`. -/
def findPeaks (corrs : ℕ → Option ℚ) (sampleRate : ℚ) (offsets : List ℕ) :
    List ACPeak :=
  offsets.filterMap (fun o =>
    let correlation := (corrs o).getD 0
    if correlation > 3/10 ∧
        correlation > (corrs (o - 1)).getD 0 ∧
        correlation > (corrs (o + 1)).getD 0 ∧
        correlation > (corrs (o - 2)).getD 0 * (9/10) ∧
        correlation > (corrs (o + 2)).getD 0 * (9/10) then
      some { offset := o, correlation := correlation,
             frequency := sampleRate / (o : ℚ) }
    else none)

/-- The lower-peak harmonic pre-check loop of `autocorrelate` (over the peaks
sorted by ascending frequency); a `some` result is its early
`return fundamental`. -/
def peakScan (frequency : ℚ) (corrs : ℕ → Option ℚ) (actualMax : ℕ)
    (sampleRate : ℚ) (minSamples : ℕ) (bestCorrelation : ℚ) :
    List ACPeak → Option ℚ
  | [] => none
  | pk :: rest =>
    if 60 ≤ pk.frequency ∧ pk.frequency ≤ 400 then
      let ratio := frequency / pk.frequency
      if 9/5 < ratio ∧ ratio < 11/5 then
        -- likely 2x harmonic
        if pk.correlation > bestCorrelation * (3/5) then
          let fundamental := findFundamentalFrequency frequency corrs actualMax
            sampleRate minSamples bestCorrelation
          if fundamental > 0 then some fundamental
          else peakScan frequency corrs actualMax sampleRate minSamples
            bestCorrelation rest
        else peakScan frequency corrs actualMax sampleRate minSamples
          bestCorrelation rest
      else if 14/5 < ratio ∧ ratio < 16/5 then
        -- likely 3x harmonic
        if pk.correlation > bestCorrelation * (1/2) then
          let fundamental := findFundamentalFrequency frequency corrs actualMax
            sampleRate minSamples bestCorrelation
          if fundamental > 0 then some fundamental
          else peakScan frequency corrs actualMax sampleRate minSamples
            bestCorrelation rest
        else peakScan frequency corrs actualMax sampleRate minSamples
          bestCorrelation rest
      else peakScan frequency corrs actualMax sampleRate minSamples
        bestCorrelation rest
    else peakScan frequency corrs actualMax sampleRate minSamples
      bestCorrelation rest

/-- The final harmonic correction at the end of `autocorrelate`: prefer a
strictly lower fundamental, reject a negative (sentinel) correction, and
otherwise keep the detected frequency. -/
def acFinalize (frequency : ℚ) (corrs : ℕ → Option ℚ) (actualMax : ℕ)
    (sampleRate : ℚ) (minSamples : ℕ) (bestCorrelation : ℚ) : ℚ :=
  let fundamental := findFundamentalFrequency frequency corrs actualMax
    sampleRate minSamples bestCorrelation
  if fundamental > 0 ∧ fundamental ≠ frequency then fundamental
  else if fundamental < 0 then -1
  else frequency

/-- `autocorrelate(buffer, sampleRate)` of the current revision:
MIN_FREQUENCY = 60 Hz, MAX_FREQUENCY = 500 Hz, RMS noise gate, peak
normalization, lag loop with interpolated early return, peak-based harmonic
pre-check, and final harmonic correction; `-1` on every failure path. -/
def autocorrelate (buffer : List ℚ) (sampleRate : ℚ) : ℚ :=
  let minSamples : ℕ := ((sampleRate / 500).floor).toNat
  let maxSamples : ℕ := ((sampleRate / 60).floor).toNat
  let size := buffer.length
  let actualMax := min maxSamples (size / 2)
  let sumSq := (buffer.map (fun v => v * v)).sum
  -- rms < 0.005, compared squared: sumSq / size < 1/40000
  if sumSq / (size : ℚ) < 1/40000 then -1
  else
    let maxVal := buffer.foldl (fun m v => max m |v|) 0
    if maxVal = 0 then -1
    else
      let nb := buffer.map (fun v => v / maxVal)
      let res := acLoop nb sampleRate minSamples actualMax
        ((List.range actualMax).drop minSamples)
        { lastCorrelation := 1, bestCorrelation := 0, bestOffset := -1
          foundGoodCorrelation := false, correlations := fun _ => none }
      match res.1 with
      | some f => f
      | none =>
        let st := res.2
        let peaks := findPeaks st.correlations sampleRate
          ((List.range (actualMax - 2)).drop (minSamples + 2))
        if st.bestCorrelation > 1/1000 ∧ st.bestOffset > 0 ∧
            st.bestOffset ≥ (minSamples : ℤ) then
          let frequency := sampleRate / (st.bestOffset : ℚ)
          let sorted := peaks.mergeSort
            (fun a b => decide (a.frequency ≤ b.frequency))
          match peakScan frequency st.correlations actualMax sampleRate
              minSamples st.bestCorrelation sorted with
          | some f => f
          | none =>
            acFinalize frequency st.correlations actualMax sampleRate
              minSamples st.bestCorrelation
        else -1

/-! ## Claims and supporting lemmas -/

/-- Claim C2: for every NoteId and every prior mastery-record state,
`recordResult(noteId, false, latency)` sets the record's streak to 0, its
level to 0, and its next review time to now plus a short delay (one minute),
regardless of the prior values. -/
theorem recordResult_wrong_resets (d : SRSData) (cardId : String)
    (timeDelta now : ℤ) :
    ((recordResult d cardId false timeDelta now).1).items cardId =
      some { level := 0, nextReview := now + 1 * 60 * 1000, streak := 0 } := by
  simp [recordResult]

/-- Counterexample to claim C3 as stated: a correct-but-slow answer
(latency 3000 ms > the 2500 ms fast threshold) on a fresh record still
raises the per-note streak from 0 to 1. -/
theorem slow_correct_increments_streak_cex :
    (2500 : ℤ) < 3000 ∧
    ((initialSRSData.items "treble-C4").map MasteryRecord.streak).getD 0 = 0 ∧
    (((recordResult initialSRSData "treble-C4" true 3000 0).1).items
        "treble-C4").map MasteryRecord.streak = some 1 := by
  refine ⟨by norm_num, rfl, rfl⟩

/-- Claim C3 (amended): `recordResult` raises the record's streak by exactly 1
on every correct result, fast or slow, and resets it to 0 on every incorrect
result; it never changes the streak in any other way. -/
theorem recordResult_streak_change (d : SRSData) (cardId : String) (c : Bool)
    (t now : ℤ) :
    (((recordResult d cardId c t now).1).items cardId).map MasteryRecord.streak =
      some (if c then ((d.items cardId).getD
        { level := 0, nextReview := 0, streak := 0 }).streak + 1 else 0) := by
  cases c
  · simp [recordResult]
  · by_cases h : t ≤ 2500 <;> simp [recordResult, h]

/-- Claim C4: a fast-correct result (`latency ≤ 2500` ms) raises the streak by
1, sets the level to `min (level+1) 5`, and schedules the next review at now
plus the interval-table entry (in minutes, converted to ms) for the new
level. -/
theorem recordResult_fast_correct (d : SRSData) (cardId : String)
    (t now : ℤ) (h : t ≤ 2500) :
    ((recordResult d cardId true t now).1).items cardId =
      some { level := min (((d.items cardId).getD
               { level := 0, nextReview := 0, streak := 0 }).level + 1)
               (srsIntervals.length - 1)
             nextReview := now + (srsIntervals.getD
               (min (((d.items cardId).getD
                  { level := 0, nextReview := 0, streak := 0 }).level + 1)
                 (srsIntervals.length - 1)) 0) * 60 * 1000
             streak := ((d.items cardId).getD
               { level := 0, nextReview := 0, streak := 0 }).streak + 1 } := by
  simp [recordResult, h]

/-- Witness for C4: on a fresh NoteId with latency 1000 ms the result is
streak 1 and level 1 (next review in 5 minutes), and a second identical call
yields streak 2 and level 2. -/
theorem recordResult_fast_correct_witness :
    (1000 : ℤ) ≤ 2500 ∧
    ((recordResult initialSRSData "treble-C4" true 1000 0).1).items "treble-C4" =
      some { level := 1, nextReview := 5 * 60 * 1000, streak := 1 } ∧
    ((recordResult (recordResult initialSRSData "treble-C4" true 1000 0).1
        "treble-C4" true 1000 0).1).items "treble-C4" =
      some { level := 2, nextReview := 30 * 60 * 1000, streak := 2 } := by
  have h1 := recordResult_fast_correct initialSRSData "treble-C4" 1000 0
    (by norm_num)
  have h2 := recordResult_fast_correct
    (recordResult initialSRSData "treble-C4" true 1000 0).1 "treble-C4" 1000 0
    (by norm_num)
  refine ⟨by norm_num, ?_, ?_⟩
  · rw [h1]; rfl
  · rw [h2, h1]; rfl

/-- Helper: the ready count of the progression scan never exceeds the number
of scanned entries. -/
lemma readyCount_le (d : SRSData) (clef : String) :
    ∀ l : List ProgEntry, ∀ c, readyCount d clef l = some c → c ≤ l.length := by
  intro l
  induction l with
  | nil =>
    intro c hc
    simp only [readyCount, Option.some.injEq] at hc
    omega
  | cons p rest ih =>
    intro c hc
    simp only [readyCount] at hc
    cases hitem : d.items (getKey clef p.n p.o) with
    | none => rw [hitem] at hc; simp at hc
    | some item =>
      rw [hitem] at hc
      simp only [Option.map_eq_some'] at hc
      obtain ⟨c0, hc0, rfl⟩ := hc
      have := ih c0 hc0
      simp only [List.length_cons]
      split <;> omega

/-- Helper: the scan reports `some l.length` exactly when every scanned entry
has a record whose streak meets the requirement. -/
lemma readyCount_spec (d : SRSData) (clef : String) (l : List ProgEntry) :
    readyCount d clef l = some l.length ↔
      ∀ p ∈ l, ∃ it, d.items (getKey clef p.n p.o) = some it ∧
        REQUIRED_STREAK_PER_NOTE ≤ it.streak := by
  induction l with
  | nil => simp [readyCount]
  | cons p rest ih =>
    constructor
    · intro h p' hp'
      simp only [readyCount] at h
      cases hitem : d.items (getKey clef p.n p.o) with
      | none => rw [hitem] at h; simp at h
      | some item =>
        rw [hitem] at h
        simp only [Option.map_eq_some'] at h
        obtain ⟨c0, hc0, hsum⟩ := h
        have hle := readyCount_le d clef rest c0 hc0
        have hstreak : REQUIRED_STREAK_PER_NOTE ≤ item.streak := by
          by_contra hcon
          rw [if_neg (by omega)] at hsum
          simp only [List.length_cons] at hsum
          omega
        rw [if_pos hstreak] at hsum
        simp only [List.length_cons] at hsum
        have hc0len : c0 = rest.length := by omega
        rcases List.mem_cons.mp hp' with rfl | hmem
        · exact ⟨item, hitem, hstreak⟩
        · exact ih.mp (hc0len ▸ hc0) p' hmem
    · intro h
      obtain ⟨it, hit, hstreak⟩ := h p (List.mem_cons_self p rest)
      have hrest : readyCount d clef rest = some rest.length :=
        ih.mpr (fun q hq => h q (List.mem_cons_of_mem p hq))
      simp [readyCount, hit, hrest, hstreak]

/-- Counterexample to claim C5 as stated: in a state whose unlocked prefix is
empty (`unlockedCount = 0`, which is below the curriculum length, and every
entry of the empty prefix vacuously has a record meeting the streak
requirement), `checkProgression` still does not increment `unlockedCount`,
because its guard additionally requires a non-empty prefix
(`totalUnlocked > 0`). -/
theorem checkProgression_vacuous_prefix_cex :
    emptyPrefixData.unlockedCount < (PROGRESSION "treble").length ∧
    (∀ p ∈ (PROGRESSION "treble").take emptyPrefixData.unlockedCount,
      ∃ it, emptyPrefixData.items (getKey "treble" p.n p.o) = some it ∧
        REQUIRED_STREAK_PER_NOTE ≤ it.streak) ∧
    checkProgression emptyPrefixData "treble" = (false, emptyPrefixData) := by
  refine ⟨by decide, ?_, rfl⟩
  intro p hp
  simp [emptyPrefixData] at hp

/-- Claim C5 (amended): `checkProgression` increments `unlockedCount` by
exactly 1 (returning `true`, the updated state being the one persisted) if and
only if the unlocked prefix is non-empty, `unlockedCount` is below the
curriculum length, and every entry of the unlocked prefix has a mastery
record with streak at or above the requirement; otherwise the state is
unchanged, and a state within the curriculum bound stays within it. -/
theorem checkProgression_spec (d : SRSData) (clef : String) :
    ((checkProgression d clef).2.unlockedCount = d.unlockedCount + 1 ↔
      (0 < d.unlockedCount ∧ d.unlockedCount < (PROGRESSION clef).length ∧
        ∀ p ∈ (PROGRESSION clef).take d.unlockedCount,
          ∃ it, d.items (getKey clef p.n p.o) = some it ∧
            REQUIRED_STREAK_PER_NOTE ≤ it.streak)) ∧
    ((checkProgression d clef).1 = true ↔
      (checkProgression d clef).2.unlockedCount = d.unlockedCount + 1) ∧
    ((checkProgression d clef).1 = false → (checkProgression d clef).2 = d) ∧
    (d.unlockedCount ≤ (PROGRESSION clef).length →
      (checkProgression d clef).2.unlockedCount ≤ (PROGRESSION clef).length) := by
  by_cases hge : d.unlockedCount ≥ (PROGRESSION clef).length
  · have hres : checkProgression d clef = (false, d) := by
      simp [checkProgression, hge]
    rw [hres]
    dsimp only
    refine ⟨⟨fun h => absurd h (by omega), ?_⟩, by simp, fun _ => rfl, fun h => h⟩
    rintro ⟨-, hlt', -⟩
    exact absurd hlt' (by omega)
  · have hlt : d.unlockedCount < (PROGRESSION clef).length := by omega
    have hlen : ((PROGRESSION clef).take d.unlockedCount).length = d.unlockedCount := by
      rw [List.length_take]; omega
    rcases hrc : readyCount d clef ((PROGRESSION clef).take d.unlockedCount)
      with - | ready
    · have hres : checkProgression d clef = (false, d) := by
        simp [checkProgression, hge, hrc]
      rw [hres]
      dsimp only
      refine ⟨⟨fun h => absurd h (by omega), ?_⟩, by simp, fun _ => rfl, fun h => h⟩
      rintro ⟨-, -, hall⟩
      have hsome := (readyCount_spec d clef _).mpr hall
      rw [hrc] at hsome
      exact Option.noConfusion hsome
    · have hle := readyCount_le d clef _ _ hrc
      by_cases hcond : 0 < ((PROGRESSION clef).take d.unlockedCount).length ∧
          ready = ((PROGRESSION clef).take d.unlockedCount).length
      · have hres : checkProgression d clef =
            (true, { d with unlockedCount := d.unlockedCount + 1 }) := by
          simp only [checkProgression]
          rw [if_neg hge, hrc]
          show (if 0 < ((PROGRESSION clef).take d.unlockedCount).length ∧
                ready = ((PROGRESSION clef).take d.unlockedCount).length then
                (true, { d with unlockedCount := d.unlockedCount + 1 })
              else (false, d)) =
            (true, { d with unlockedCount := d.unlockedCount + 1 })
          rw [if_pos hcond]
        rw [hres]
        dsimp only
        refine ⟨?_, by simp, by simp, fun _ => ?_⟩
        · refine ⟨fun _ => ⟨by omega, hlt, ?_⟩, fun _ => rfl⟩
          have hall : readyCount d clef ((PROGRESSION clef).take d.unlockedCount) =
              some ((PROGRESSION clef).take d.unlockedCount).length := by
            rw [hrc, hcond.2]
          exact (readyCount_spec d clef _).mp hall
        · show d.unlockedCount + 1 ≤ (PROGRESSION clef).length
          omega
      · have hres : checkProgression d clef = (false, d) := by
          simp only [checkProgression]
          rw [if_neg hge, hrc]
          show (if 0 < ((PROGRESSION clef).take d.unlockedCount).length ∧
                ready = ((PROGRESSION clef).take d.unlockedCount).length then
                (true, { d with unlockedCount := d.unlockedCount + 1 })
              else (false, d)) = (false, d)
          rw [if_neg hcond]
        rw [hres]
        dsimp only
        refine ⟨⟨fun h => absurd h (by omega), ?_⟩, by simp, fun _ => rfl, fun h => h⟩
        rintro ⟨hpos, -, hall⟩
        have hsome := (readyCount_spec d clef _).mpr hall
        rw [hrc] at hsome
        have hready : ready = ((PROGRESSION clef).take d.unlockedCount).length :=
          Option.some.inj hsome
        exact absurd ⟨by omega, hready⟩ hcond

/-- Witness for C5: with `unlockedCount = 3` and exactly those three treble
notes at streak ≥ 20, one `checkProgression` call unlocks the fourth note
(and the count stays within the 14-entry treble curriculum). -/
theorem checkProgression_spec_witness :
    (checkProgression masteredThreeData "treble").2.unlockedCount = 4 ∧
    (checkProgression masteredThreeData "treble").1 = true ∧
    (checkProgression masteredThreeData "treble").2.unlockedCount ≤ 14 := by
  have h := checkProgression_spec masteredThreeData "treble"
  have hall : ∀ p ∈ (PROGRESSION "treble").take masteredThreeData.unlockedCount,
      ∃ it, masteredThreeData.items (getKey "treble" p.n p.o) = some it ∧
        REQUIRED_STREAK_PER_NOTE ≤ it.streak := by
    have hpre : (PROGRESSION "treble").take masteredThreeData.unlockedCount =
        [⟨"C", 4⟩, ⟨"D", 4⟩, ⟨"E", 4⟩] := rfl
    rw [hpre]
    intro p hp
    fin_cases hp
    · exact ⟨_, rfl, by norm_num [REQUIRED_STREAK_PER_NOTE]⟩
    · exact ⟨_, rfl, by norm_num [REQUIRED_STREAK_PER_NOTE]⟩
    · exact ⟨_, rfl, by norm_num [REQUIRED_STREAK_PER_NOTE]⟩
  have hinc := h.1.mpr ⟨by decide, by decide, hall⟩
  refine ⟨hinc, h.2.1.mpr hinc, ?_⟩
  exact h.2.2.2 (by decide)

/-- Helper: the strict-majority test the regression check performs with
rational division, phrased over naturals. -/
lemma half_lt_div (a b : ℕ) (hb : 0 < b) :
    (1/2 : ℚ) < (a : ℚ) / (b : ℚ) ↔ b < 2 * a := by
  have hb' : (0 : ℚ) < (b : ℚ) := by exact_mod_cast hb
  rw [lt_div_iff₀ hb']
  constructor
  · intro h
    have h2 : (b : ℚ) < 2 * (a : ℚ) := by linarith
    exact_mod_cast h2
  · intro h
    have h2 : (b : ℚ) < 2 * (a : ℚ) := by exact_mod_cast h
    linarith

/-- Claim C6: `checkRegression` decrements `unlockedCount` by exactly 1
(returning `true`, the updated state being the one persisted) if and only if
the number of unlocked-prefix entries whose record is absent or below the
required streak exceeds half the prefix and `unlockedCount` is above the
floor of 3; at the floor (or below) the state is never changed.  The
`unlockedCount ≤ curriculum length` hypotheses delimit the states on which
the source loop indexes only defined curriculum entries. -/
theorem checkRegression_spec (d : SRSData) (clef : String) :
    (d.unlockedCount ≤ 3 → checkRegression d clef = (false, d)) ∧
    (d.unlockedCount ≤ (PROGRESSION clef).length →
      (((checkRegression d clef).2.unlockedCount + 1 = d.unlockedCount) ↔
        (3 < d.unlockedCount ∧
          d.unlockedCount < 2 * lowStreakCount d clef
            ((PROGRESSION clef).take d.unlockedCount))) ∧
      ((checkRegression d clef).1 = true ↔
        (checkRegression d clef).2.unlockedCount + 1 = d.unlockedCount) ∧
      ((checkRegression d clef).1 = false → (checkRegression d clef).2 = d)) := by
  constructor
  · intro h3
    simp [checkRegression, h3]
  · intro hlenle
    by_cases h3 : d.unlockedCount ≤ 3
    · have hres : checkRegression d clef = (false, d) := by
        simp [checkRegression, h3]
      rw [hres]
      dsimp only
      refine ⟨⟨fun h => absurd h (by omega), ?_⟩, by simp, fun _ => rfl⟩
      rintro ⟨h4, -⟩
      exact absurd h4 (by omega)
    · have h3' : 3 < d.unlockedCount := by omega
      have hpos : 0 < d.unlockedCount := by omega
      have hlen : ((PROGRESSION clef).take d.unlockedCount).length = d.unlockedCount := by
        rw [List.length_take]; omega
      by_cases hcond : d.unlockedCount <
          2 * lowStreakCount d clef ((PROGRESSION clef).take d.unlockedCount)
      · have hres : checkRegression d clef =
            (true, { d with unlockedCount := max 3 (d.unlockedCount - 1) }) := by
          simp only [checkRegression]
          rw [if_neg h3, hlen, if_pos hpos]
          rw [if_pos ⟨hpos, (half_lt_div _ _ hpos).mpr hcond⟩]
        have hmax : max 3 (d.unlockedCount - 1) = d.unlockedCount - 1 := by omega
        rw [hres]
        dsimp only
        rw [hmax]
        refine ⟨⟨fun _ => ⟨h3', hcond⟩, fun _ => by omega⟩, ?_, by simp⟩
        constructor
        · intro _; omega
        · intro _; rfl
      · have hres : checkRegression d clef = (false, d) := by
          simp only [checkRegression]
          rw [if_neg h3, hlen, if_pos hpos]
          rw [if_neg (fun hc => hcond ((half_lt_div _ _ hpos).mp hc.2))]
        rw [hres]
        dsimp only
        refine ⟨⟨fun h => absurd h (by omega), ?_⟩, by simp, fun _ => rfl⟩
        rintro ⟨-, hlow⟩
        exact absurd hlow hcond

/-- Witness for C6: with `unlockedCount = 4` and 3 of the 4 unlocked treble
notes below the required streak (75% > 50%), one regression call drops the
count to 3; at the floor (`unlockedCount = 3`) the state is left unchanged. -/
theorem checkRegression_spec_witness :
    (checkRegression regressionFourData "treble").2.unlockedCount + 1 = 4 ∧
    (checkRegression regressionFourData "treble").1 = true ∧
    checkRegression initialSRSData "treble" = (false, initialSRSData) := by
  have h := (checkRegression_spec regressionFourData "treble").2 (by decide)
  have hdec := h.1.mpr ⟨by decide, by decide⟩
  refine ⟨hdec, h.2.1.mpr hdec, ?_⟩
  exact (checkRegression_spec initialSRSData "treble").1 (by decide)

/-- Claim C7 fails on the code: on the fresh default store (three unlocked
bass notes, none attempted yet) with the new-note draw failing, `generateCard`
returns the hardcoded fallback card (`id: 'fallback'`, note C4), which is not
an entry of the bass curriculum at all, let alone one with index below
`unlockedCount`.  The source comments this path `shouldn't happen`, yet it is
taken: every unattempted entry is excluded from the due and review pools. -/
theorem generateCard_fallback_cex :
    generateCard initialSRSData "bass" "C" 0 freshMissRand =
      fallbackCard "bass" "C" ∧
    (fallbackCard "bass" "C").id = "fallback" ∧
    (PROGRESSION "bass").all
      (fun p => decide (¬(p.n = (fallbackCard "bass" "C").note ∧
        p.o = (fallbackCard "bass" "C").octave))) = true ∧
    (PROGRESSION "bass").all
      (fun p => decide (getKey "bass" p.n p.o ≠ "fallback")) = true := by
  have hs : (buildPools initialSRSData "bass" "C" 0
      ((PROGRESSION "bass").take (unlockedLimit initialSRSData "bass"))).2.2.1 =
      [] := rfl
  have hd : (buildPools initialSRSData "bass" "C" 0
      ((PROGRESSION "bass").take (unlockedLimit initialSRSData "bass"))).2.1 =
      [] := rfl
  have hc : (buildPools initialSRSData "bass" "C" 0
      ((PROGRESSION "bass").take (unlockedLimit initialSRSData "bass"))).2.2.2 =
      [] := rfl
  refine ⟨?_, rfl, by decide, by decide⟩
  have h1 : ¬(0 < (buildPools initialSRSData "bass" "C" 0
      ((PROGRESSION "bass").take (unlockedLimit initialSRSData "bass"))).2.2.1.length ∧
      freshMissRand.pickStruggling < 2/5) := by
    rw [hs]; rintro ⟨h, -⟩; simp at h
  have h2 : ¬(0 < (buildPools initialSRSData "bass" "C" 0
      ((PROGRESSION "bass").take (unlockedLimit initialSRSData "bass"))).1.length ∧
      freshMissRand.pickNew < 3/10) := by
    rintro ⟨-, h⟩
    norm_num [freshMissRand] at h
  have h3 : ¬(0 < (buildPools initialSRSData "bass" "C" 0
      ((PROGRESSION "bass").take (unlockedLimit initialSRSData "bass"))).2.1.length) := by
    rw [hd]; simp
  have h4 : ¬(0 < (buildPools initialSRSData "bass" "C" 0
      ((PROGRESSION "bass").take (unlockedLimit initialSRSData "bass"))).2.2.2.length) := by
    rw [hc]; simp
  simp only [generateCard]
  rw [if_neg h1, if_neg h2, if_neg h3, if_neg h4]

/-- Helper: the new-items pool is the curriculum-ordered list of unlocked
entries with no mastery record. -/
lemma buildPools_news_eq (d : SRSData) (clef keySig : String) (now : ℤ) :
    ∀ l : List ProgEntry,
      (buildPools d clef keySig now l).1 =
        (l.filter (fun p => (d.items (getKey clef p.n p.o)).isNone)).map
          (mkCard clef keySig) := by
  intro l
  induction l with
  | nil => rfl
  | cons p rest ih =>
    cases hitem : d.items (getKey clef p.n p.o) with
    | none => simp [buildPools, hitem, ih]
    | some item => simp [buildPools, hitem, ih]

/-- Helper: when `find?` locates an element, the filtered list starts with
that element. -/
lemma find?_head_filter (f : ProgEntry → Bool) :
    ∀ (l : List ProgEntry) (p : ProgEntry), l.find? f = some p →
      ∃ t, l.filter f = p :: t := by
  intro l
  induction l with
  | nil => intro p h; simp at h
  | cons q rest ih =>
    intro p h
    by_cases hq : f q
    · rw [List.find?_cons_of_pos _ hq] at h
      obtain rfl := Option.some.inj h
      exact ⟨rest.filter f, by rw [List.filter_cons_of_pos hq]⟩
    · rw [List.find?_cons_of_neg _ hq] at h
      obtain ⟨t, ht⟩ := ih p h
      exact ⟨t, by rw [List.filter_cons_of_neg hq, ht]⟩

/-- Claim C8: whenever the new-note branch is taken (the struggling branch was
not taken, some unlocked entry has no record, and the 0.3 draw succeeds),
`generateCard` returns the card of the first never-attempted entry in
curriculum order — not a random one. -/
theorem generateCard_new_first (d : SRSData) (clef keySig : String) (now : ℤ)
    (rnd : RandDraws) (p : ProgEntry)
    (hstrug : ¬(0 < (buildPools d clef keySig now
        ((PROGRESSION clef).take (unlockedLimit d clef))).2.2.1.length ∧
      rnd.pickStruggling < 2/5))
    (hfirst : ((PROGRESSION clef).take (unlockedLimit d clef)).find?
        (fun q => (d.items (getKey clef q.n q.o)).isNone) = some p)
    (hpick : rnd.pickNew < 3/10) :
    generateCard d clef keySig now rnd = mkCard clef keySig p := by
  obtain ⟨t, ht⟩ := find?_head_filter _ _ p hfirst
  have hnews := buildPools_news_eq d clef keySig now
    ((PROGRESSION clef).take (unlockedLimit d clef))
  have hlen : 0 < (buildPools d clef keySig now
      ((PROGRESSION clef).take (unlockedLimit d clef))).1.length := by
    rw [hnews, ht]; simp
  simp only [generateCard]
  rw [if_neg hstrug, if_pos ⟨hlen, hpick⟩, hnews, ht]
  rfl

/-- Witness for C8: on the fresh default store for treble, with the new-note
draw succeeding, the selected card is middle C — the first treble curriculum
entry, which is also the first entry without a record. -/
theorem generateCard_new_first_witness :
    generateCard initialSRSData "treble" "C" 0 newPickRand =
      mkCard "treble" "C" ⟨"C", 4⟩ ∧
    ((PROGRESSION "treble").take (unlockedLimit initialSRSData "treble")).find?
        (fun q => (initialSRSData.items (getKey "treble" q.n q.o)).isNone) =
      some ⟨"C", 4⟩ := by
  have hs : (buildPools initialSRSData "treble" "C" 0
      ((PROGRESSION "treble").take (unlockedLimit initialSRSData "treble"))).2.2.1 =
      [] := rfl
  have hfirst : ((PROGRESSION "treble").take
      (unlockedLimit initialSRSData "treble")).find?
      (fun q => (initialSRSData.items (getKey "treble" q.n q.o)).isNone) =
      some ⟨"C", 4⟩ := rfl
  refine ⟨?_, hfirst⟩
  exact generateCard_new_first initialSRSData "treble" "C" 0 newPickRand
    ⟨"C", 4⟩ (by rw [hs]; rintro ⟨h, -⟩; simp at h) hfirst
    (by norm_num [newPickRand])

/-- Helper: `checkProgression` either leaves the state untouched (returning
`false`) or increments the single `unlockedCount` field (returning `true`),
the latter only below the curriculum length. -/
lemma checkProgression_result (d : SRSData) (clef : String) :
    checkProgression d clef = (false, d) ∨
    (checkProgression d clef =
        (true, { d with unlockedCount := d.unlockedCount + 1 }) ∧
      d.unlockedCount < (PROGRESSION clef).length) := by
  by_cases hge : d.unlockedCount ≥ (PROGRESSION clef).length
  · left; simp [checkProgression, hge]
  · rcases hrc : readyCount d clef ((PROGRESSION clef).take d.unlockedCount)
      with - | ready
    · left; simp [checkProgression, hge, hrc]
    · by_cases hcond : 0 < ((PROGRESSION clef).take d.unlockedCount).length ∧
          ready = ((PROGRESSION clef).take d.unlockedCount).length
      · right
        refine ⟨?_, by omega⟩
        simp only [checkProgression]
        rw [if_neg hge, hrc]
        show (if 0 < ((PROGRESSION clef).take d.unlockedCount).length ∧
              ready = ((PROGRESSION clef).take d.unlockedCount).length then
              (true, { d with unlockedCount := d.unlockedCount + 1 })
            else (false, d)) =
          (true, { d with unlockedCount := d.unlockedCount + 1 })
        rw [if_pos hcond]
      · left
        simp only [checkProgression]
        rw [if_neg hge, hrc]
        show (if 0 < ((PROGRESSION clef).take d.unlockedCount).length ∧
              ready = ((PROGRESSION clef).take d.unlockedCount).length then
              (true, { d with unlockedCount := d.unlockedCount + 1 })
            else (false, d)) = (false, d)
        rw [if_neg hcond]

/-- Claim C10: the engine keeps one `unlockedCount` shared by all clefs.  A
successful `checkProgression` call for one clef increments that single
cursor (leaving the per-note records untouched), and thereby enlarges the
unlocked curriculum prefix that `generateCard` and both checks consult for
every clef. -/
theorem unlockedCursor_global (d : SRSData) (c1 : String)
    (h : (checkProgression d c1).1 = true) :
    (checkProgression d c1).2.unlockedCount = d.unlockedCount + 1 ∧
    (checkProgression d c1).2.items = d.items ∧
    ∀ c2 : String, unlockedLimit (checkProgression d c1).2 c2 =
      min (d.unlockedCount + 1) (PROGRESSION c2).length := by
  rcases checkProgression_result d c1 with hres | ⟨hres, -⟩
  · rw [hres] at h
    exact absurd h (by simp)
  · rw [hres]
    exact ⟨rfl, rfl, fun c2 => rfl⟩

/-- Witness for C10: a successful progression check for the bass clef bumps
the one cursor from 3 to 4, which widens the unlocked prefix used for the
treble clef to 4 entries as well. -/
theorem unlockedCursor_global_witness :
    (checkProgression bassMasteredData "bass").1 = true ∧
    (checkProgression bassMasteredData "bass").2.unlockedCount = 4 ∧
    unlockedLimit (checkProgression bassMasteredData "bass").2 "treble" = 4 := by
  have h : (checkProgression bassMasteredData "bass").1 = true := rfl
  have hg := unlockedCursor_global bassMasteredData "bass" h
  refine ⟨h, hg.1, ?_⟩
  rw [hg.2.2 "treble"]
  decide

/-- Claim C1: at 440 Hz the note mapper returns note A, octave 4 (and no
accidental). -/
theorem frequencyToNote_440 :
    frequencyToNote 440 =
      some { note := "A", octave := 4, frequency := 440, accidental := none } := by
  simp only [frequencyToNote]
  rw [if_neg (by norm_num : ¬(440 : ℝ) ≤ 0)]
  have hsem : (12 : ℝ) * Real.logb 2 ((440 : ℝ) / 440) = 0 := by
    rw [div_self (by norm_num : (440 : ℝ) ≠ 0), Real.logb_one, mul_zero]
  rw [hsem, round_zero, Option.some.injEq, NoteResult.mk.injEq]
  refine ⟨by decide, by decide, rfl, by decide⟩

/-- Helper: the harmonic scan's best fundamental is either still the detected
frequency or an in-band candidate. -/
lemma harmonicScan_inv (detectedFreq : ℚ) (correlations : ℕ → Option ℚ)
    (corrLen : ℕ) (sampleRate : ℚ) (minSamples : ℕ) :
    ∀ (hs : List ℕ) (best : ℚ × ℚ),
      (best.1 = detectedFreq ∨ (60 ≤ best.1 ∧ best.1 ≤ 400)) →
      ((harmonicScan detectedFreq correlations corrLen sampleRate minSamples
          hs best).1 = detectedFreq ∨
        (60 ≤ (harmonicScan detectedFreq correlations corrLen sampleRate
            minSamples hs best).1 ∧
          (harmonicScan detectedFreq correlations corrLen sampleRate minSamples
            hs best).1 ≤ 400)) := by
  intro hs
  induction hs with
  | nil => intro best h; exact h
  | cons harmonic rest ih =>
    intro best h
    simp only [harmonicScan]
    split
    · exact ih best h
    · next hband =>
      split
      · split
        · split
          · apply ih
            right
            push_neg at hband
            exact hband
          · exact ih best h
        · exact ih best h
      · exact ih best h

/-- Helper: `findFundamentalFrequency` returns the sentinel or a frequency
inside the expected fundamental band `[60, 400]`. -/
lemma findFundamental_band (detectedFreq : ℚ) (correlations : ℕ → Option ℚ)
    (corrLen : ℕ) (sampleRate : ℚ) (minSamples : ℕ)
    (detectedCorrelation : ℚ) :
    findFundamentalFrequency detectedFreq correlations corrLen sampleRate
        minSamples detectedCorrelation = -1 ∨
      (60 ≤ findFundamentalFrequency detectedFreq correlations corrLen
          sampleRate minSamples detectedCorrelation ∧
        findFundamentalFrequency detectedFreq correlations corrLen sampleRate
          minSamples detectedCorrelation ≤ 400) := by
  simp only [findFundamentalFrequency]
  split
  · left; rfl
  · split
    · next hcond =>
      right
      rcases harmonicScan_inv detectedFreq correlations corrLen sampleRate
        minSamples [2, 3, 4, 5, 6] (detectedFreq, detectedCorrelation)
        (Or.inl rfl) with heq | hband
      · exfalso
        rw [heq] at hcond
        exact lt_irrefl _ hcond.1
      · exact hband
    · split
      · left; rfl
      · next hout =>
        right
        push_neg at hout
        exact hout

/-- Helper: any early return of the main lag loop is in band. -/
lemma acLoop_early_band (nb : List ℚ) (sampleRate : ℚ)
    (minSamples actualMax : ℕ) :
    ∀ (offsets : List ℕ) (st : ACState) (f : ℚ),
      (acLoop nb sampleRate minSamples actualMax offsets st).1 = some f →
      60 ≤ f ∧ f ≤ 400 := by
  intro offsets
  induction offsets with
  | nil => intro st f h; simp [acLoop] at h
  | cons offset rest ih =>
    intro st f h
    simp only [acLoop] at h
    split at h
    · exact ih _ f h
    · split at h
      · split at h
        · split at h
          · next hpos =>
            dsimp only at h
            have hf := Option.some.inj h
            subst hf
            rcases findFundamental_band _ _ _ _ _ _ with hneg | hband
            · rw [hneg] at hpos
              norm_num at hpos
            · exact hband
          · exact ih _ f h
        · exact ih _ f h
      · exact ih _ f h

/-- Helper: any early return of the lower-peak harmonic pre-check is in
band. -/
lemma peakScan_band (frequency : ℚ) (corrs : ℕ → Option ℚ) (actualMax : ℕ)
    (sampleRate : ℚ) (minSamples : ℕ) (bestCorrelation : ℚ) :
    ∀ (peaks : List ACPeak) (f : ℚ),
      peakScan frequency corrs actualMax sampleRate minSamples bestCorrelation
        peaks = some f →
      60 ≤ f ∧ f ≤ 400 := by
  intro peaks
  induction peaks with
  | nil => intro f h; simp [peakScan] at h
  | cons pk rest ih =>
    intro f h
    simp only [peakScan] at h
    split at h
    · split at h
      · split at h
        · split at h
          · next hpos =>
            have hf := Option.some.inj h
            subst hf
            rcases findFundamental_band _ _ _ _ _ _ with hneg | hband
            · rw [hneg] at hpos
              norm_num at hpos
            · exact hband
          · exact ih f h
        · exact ih f h
      · split at h
        · split at h
          · split at h
            · next hpos =>
              have hf := Option.some.inj h
              subst hf
              rcases findFundamental_band _ _ _ _ _ _ with hneg | hband
              · rw [hneg] at hpos
                norm_num at hpos
              · exact hband
            · exact ih f h
          · exact ih f h
        · exact ih f h
    · exact ih f h

/-- Helper: the final harmonic-correction step only yields the sentinel or an
in-band frequency. -/
lemma acFinalize_band (frequency : ℚ) (corrs : ℕ → Option ℚ) (actualMax : ℕ)
    (sampleRate : ℚ) (minSamples : ℕ) (bestCorrelation : ℚ) :
    acFinalize frequency corrs actualMax sampleRate minSamples
        bestCorrelation = -1 ∨
      (60 ≤ acFinalize frequency corrs actualMax sampleRate minSamples
          bestCorrelation ∧
        acFinalize frequency corrs actualMax sampleRate minSamples
          bestCorrelation ≤ 400) := by
  simp only [acFinalize]
  split
  · next hfp =>
    right
    rcases findFundamental_band frequency corrs actualMax sampleRate minSamples
      bestCorrelation with hneg | hband
    · rw [hneg] at hfp
      norm_num at hfp
    · exact hband
  · next hfp =>
    split
    · left; rfl
    · next hneg =>
      right
      rcases findFundamental_band frequency corrs actualMax sampleRate
        minSamples bestCorrelation with hm1 | hband
      · exfalso
        rw [hm1] at hneg
        norm_num at hneg
      · have hpos : (0 : ℚ) < findFundamentalFrequency frequency corrs
            actualMax sampleRate minSamples bestCorrelation := by
          linarith [hband.1]
        rcases not_and_or.mp hfp with hnp | hne
        · exact absurd hpos hnp
        · rw [← not_not.mp hne]
          exact hband

/-- Claim C9: for every input buffer and sample rate, `autocorrelate` either
returns the sentinel `-1` or a frequency inside the expected fundamental band
`[60, 400]` Hz; in particular every positive return value is in band, and an
out-of-band final candidate is reported as `-1`, never as itself. -/
theorem autocorrelate_band (buffer : List ℚ) (sampleRate : ℚ) :
    autocorrelate buffer sampleRate = -1 ∨
      (60 ≤ autocorrelate buffer sampleRate ∧
        autocorrelate buffer sampleRate ≤ 400) := by
  simp only [autocorrelate]
  split
  · left; rfl
  · split
    · left; rfl
    · split
      · next f hres =>
        right
        exact acLoop_early_band _ _ _ _ _ _ f hres
      · next hres =>
        split
        · split
          · next f hps =>
            right
            exact peakScan_band _ _ _ _ _ _ _ f hps
          · next hps =>
            exact acFinalize_band _ _ _ _ _ _
        · left; rfl
